import Mathlib

/- Verification development for the page-flip engine of the book-album program
   (src/script.py).  The mutable Python objects `FlipState` and `BookAlbum` are
   embedded as Lean structures; every method that mutates state becomes a pure
   function from the old state to the new state.  Python floats are modelled by
   exact rationals; the real-valued leaf geometry (cosine projection) is
   modelled over the reals. -/

/- Helper from src/script.py line 51: clamp(x, a, b) = max(a, min(b, x)). -/
def clamp {α : Type} [LinearOrder α] (x a b : α) : α := max a (min b x)

/- Module constants, src/script.py lines 25-48. -/
def WINDOW_W : ℚ := 1200
def WINDOW_H : ℚ := 720
def BOOK_MARGIN : ℚ := 60
def SPINE_W : ℚ := 18
def PAGE_GAP : ℚ := 2
def FLIP_SPEED : ℚ := 10
def DRAG_SPRING : ℚ := 22
def DRAG_DAMP : ℚ := 43/50

/- Autoplay interval 2.2 seconds, src/script.py line 192. -/
def autoplay_interval : ℚ := 11/5

/- Book geometry computed in BookAlbum.__init__, src/script.py lines 171-186.
   book_rect = (60, 60, 1080, 600); spread_rect = book_rect.inflate(-40, -40),
   and inflate keeps the centre, so spread = (80, 80, 1040, 560).  All the
   divisions below are exact, so rational arithmetic agrees with the Python
   integers. -/
def spread_left : ℚ := BOOK_MARGIN + 20
def spread_top : ℚ := BOOK_MARGIN + 20
def spread_w : ℚ := (WINDOW_W - 2*BOOK_MARGIN) - 40
def spread_h : ℚ := (WINDOW_H - 2*BOOK_MARGIN) - 40
def spine_x : ℚ := spread_left + spread_w/2
def page_w : ℚ := (spread_w - SPINE_W - PAGE_GAP*2)/2
def page_h : ℚ := spread_h
def left_rect_left : ℚ := spread_left
def left_rect_right : ℚ := spread_left + page_w
def right_rect_left : ℚ := spine_x + SPINE_W/2 + PAGE_GAP
def right_rect_right : ℚ := right_rect_left + page_w

/- The dataclass FlipState, src/script.py lines 151-158, with its defaults. -/
structure FlipState where
  flipping : Bool := false
  direction : ℤ := 0
  t : ℚ := 0
  dragging : Bool := false
  drag_x : ℚ := 0
  vel : ℚ := 0
deriving DecidableEq

/- The mutable part of BookAlbum, src/script.py lines 161-199.  `drag_commit`
   models the dynamically attached attribute `_drag_commit`: `some c` when the
   attribute is present with value c, `none` when it has been deleted or was
   never set. -/
structure BookAlbum where
  pages : List String
  index : ℤ
  flip : FlipState := {}
  autoplay : Bool := false
  autoplay_timer : ℚ := 0
  drag_commit : Option Bool := none
deriving DecidableEq

/- BookAlbum.can_next, src/script.py line 219: index + 2 < len(pages). -/
def can_next (b : BookAlbum) : Prop := b.index + 2 < (b.pages.length : ℤ)

instance (b : BookAlbum) : Decidable (can_next b) :=
  inferInstanceAs (Decidable (b.index + 2 < (b.pages.length : ℤ)))

/- BookAlbum.can_prev, src/script.py line 222: index - 2 >= 0. -/
def can_prev (b : BookAlbum) : Prop := 0 ≤ b.index - 2

instance (b : BookAlbum) : Decidable (can_prev b) :=
  inferInstanceAs (Decidable (0 ≤ b.index - 2))

/- BookAlbum.get_page_surface, src/script.py lines 225-231.  `none` stands for
   the blank-paper surface branch, `some path` for the cached page image. -/
def get_page_surface (b : BookAlbum) (idx : ℤ) : Option String :=
  if idx < 0 ∨ (b.pages.length : ℤ) ≤ idx then none
  else b.pages[idx.toNat]?

/- BookAlbum.start_flip, src/script.py lines 233-241. -/
def start_flip (b : BookAlbum) (direction : ℤ) : BookAlbum :=
  if b.flip.flipping ∨ b.flip.dragging then b
  else if direction = 1 ∧ ¬ can_next b then b
  else if direction = -1 ∧ ¬ can_prev b then b
  else
    { b with
      flip :=
        { flipping := true
          direction := direction
          t := 0
          dragging := false
          drag_x := 0
          vel := 0 } }

/- BookAlbum.start_drag, src/script.py lines 243-262.  The pointer y comes from
   pygame.mouse.get_pos(); it is passed explicitly here.  collidepoint treats
   points on the right and bottom edges as outside. -/
def start_drag (b : BookAlbum) (mx my : ℚ) : BookAlbum :=
  if b.flip.flipping then b
  else if can_next b ∧
      (right_rect_left ≤ mx ∧ mx < right_rect_right ∧
       spread_top ≤ my ∧ my < spread_top + page_h) ∧
      right_rect_right - 80 < mx then
    { b with
      flip :=
        { b.flip with
          dragging := true
          direction := 1
          drag_x := mx
          vel := 0 } }
  else if can_prev b ∧
      (left_rect_left ≤ mx ∧ mx < left_rect_left + page_w ∧
       spread_top ≤ my ∧ my < spread_top + page_h) ∧
      mx < left_rect_left + 80 then
    { b with
      flip :=
        { b.flip with
          dragging := true
          direction := -1
          drag_x := mx
          vel := 0 } }
  else b

/- BookAlbum.drag_to_t, src/script.py lines 283-294. -/
def drag_to_t (dx : ℚ) (direction : ℤ) : ℚ :=
  if direction = 1 then
    clamp ((right_rect_right - dx) / max 1 (right_rect_right - left_rect_left)) 0 1
  else
    clamp ((dx - left_rect_left) / max 1 (right_rect_right - left_rect_left)) 0 1

/- BookAlbum.end_drag, src/script.py lines 264-281. -/
def end_drag (b : BookAlbum) : BookAlbum :=
  if ¬ b.flip.dragging then b
  else
    let commit : Bool :=
      if b.flip.direction = 1 then decide (b.flip.drag_x < spine_x)
      else decide (spine_x < b.flip.drag_x)
    { b with
      flip :=
        { b.flip with
          dragging := false
          flipping := true
          t := drag_to_t b.flip.drag_x b.flip.direction
          vel := 0 }
      drag_commit := some commit }

/- BookAlbum.finish_flip, src/script.py lines 332-340. -/
def finish_flip (b : BookAlbum) : BookAlbum :=
  let b1 :=
    if 1 ≤ b.flip.t then
      if b.flip.direction = 1 then { b with index := b.index + 2 }
      else if b.flip.direction = -1 then { b with index := b.index - 2 }
      else b
    else b
  { b1 with flip := {} }

/- The autoplay block at the top of BookAlbum.update, src/script.py lines
   297-305.  The timer is zeroed before can_next is consulted; the timer does
   not influence can_next, exactly as in the source. -/
def autoplay_step (b : BookAlbum) (dt : ℚ) : BookAlbum :=
  if b.autoplay ∧ ¬ b.flip.flipping ∧ ¬ b.flip.dragging then
    (if autoplay_interval ≤ b.autoplay_timer + dt then
      (if can_next { b with autoplay_timer := 0 } then
        start_flip { b with autoplay_timer := 0 } 1
       else { b with autoplay_timer := 0, index := 0 })
     else { b with autoplay_timer := b.autoplay_timer + dt })
  else b

/- The dragging branch of BookAlbum.update, src/script.py lines 308-311: the
   stored drag x follows the mouse, clamped to the page span; nothing else
   changes (in particular flip.t is not recomputed here). -/
def drag_follow (b : BookAlbum) (mouse_x : ℚ) : BookAlbum :=
  { b with flip := { b.flip with drag_x := clamp mouse_x left_rect_left right_rect_right } }

/- The spring branch of BookAlbum.update, src/script.py lines 315-325.
   target = 1 when the drag committed, 0 when it cancelled; 0.002 = 1/500 and
   0.01 = 1/100 are the convergence thresholds. -/
def spring_advance (b : BookAlbum) (c : Bool) (dt : ℚ) : BookAlbum :=
  let target : ℚ := if c then 1 else 0
  let a := (target - b.flip.t) * DRAG_SPRING
  let vel := (b.flip.vel + a * dt) * DRAG_DAMP
  let t := b.flip.t + vel * dt
  if |target - t| < 1/500 ∧ |vel| < 1/100 then
    finish_flip
      { b with
        flip := { b.flip with t := target, vel := vel }
        drag_commit := none }
  else { b with flip := { b.flip with t := t, vel := vel } }

/- The keyboard branch of BookAlbum.update, src/script.py lines 326-330. -/
def keyboard_advance (b : BookAlbum) (dt : ℚ) : BookAlbum :=
  let t := b.flip.t + dt * (FLIP_SPEED / 10)
  if 1 ≤ t then finish_flip { b with flip := { b.flip with t := 1 } }
  else { b with flip := { b.flip with t := t } }

/- Branch dispatch on hasattr(self, "_drag_commit"), src/script.py line 315. -/
def flip_advance (b : BookAlbum) (dt : ℚ) : BookAlbum :=
  match b.drag_commit with
  | some c => spring_advance b c dt
  | none => keyboard_advance b dt

/- BookAlbum.update, src/script.py lines 296-330, assembled in source order:
   autoplay block, then the dragging early return, then the flip animation. -/
def update (b : BookAlbum) (dt mouse_x : ℚ) : BookAlbum :=
  let b1 := autoplay_step b dt
  if b1.flip.dragging then drag_follow b1 mouse_x
  else if b1.flip.flipping then flip_advance b1 dt
  else b1

/- The input events consumed by BookAlbum.handle_event,
   src/script.py lines 342-365. -/
inductive BookEvent where
  | keyNext
  | keyPrev
  | keyHome
  | keyEnd
  | keyAutoplay
  | mouseDown (mx my : ℚ)
  | mouseUp

/- BookAlbum.handle_event, src/script.py lines 342-365.  HOME and END assign
   the index with no guard on the flip state; END jumps to the last even index
   when the book is non-empty. -/
def handle_event (b : BookAlbum) : BookEvent → BookAlbum
  | .keyNext => start_flip b 1
  | .keyPrev => start_flip b (-1)
  | .keyHome => { b with index := 0 }
  | .keyEnd =>
      if 0 < b.pages.length then
        let i : ℤ := (((b.pages.length - 1) / 2) * 2 : ℕ)
        if (b.pages.length : ℤ) ≤ i then { b with index := max 0 ((b.pages.length : ℤ) - 2) }
        else { b with index := i }
      else b
  | .keyAutoplay => { b with autoplay := !b.autoplay, autoplay_timer := 0 }
  | .mouseDown mx my => start_drag b mx my
  | .mouseUp => end_drag b

/- n successive frames: update applied n times with fixed dt and mouse x. -/
def updates (dt mouse_x : ℚ) : ℕ → BookAlbum → BookAlbum
  | 0, b => b
  | n+1, b => updates dt mouse_x n (update b dt mouse_x)

/- Abbreviations for the three values computed by one spring integration step
   of spring_advance (src/script.py lines 317-321): the target, the new
   velocity and the new progress.  They are definitionally the expressions of
   spring_advance, factored out so the convergence lemmas can name them. -/
def spring_target (c : Bool) : ℚ := if c then 1 else 0

def spring_new_vel (c : Bool) (t v dt : ℚ) : ℚ :=
  (v + (spring_target c - t) * DRAG_SPRING * dt) * DRAG_DAMP

def spring_new_t (c : Bool) (t v dt : ℚ) : ℚ := t + spring_new_vel c t v dt * dt

/- Invariant cone showing the discrete spring diverges at time step dt = 1:
   displacement e = target - progress and velocity v sit on opposite sides,
   with |e| at least 2 and |v| at most (6/5)|e|.  One step multiplies |e| by
   about 16.9 and flips the side. -/
def diverging (e v : ℚ) : Prop :=
  (2 ≤ e ∧ -(6/5) * e ≤ v ∧ v ≤ 0) ∨ (e ≤ -2 ∧ 0 ≤ v ∧ v ≤ -(6/5) * e)

/- Invariant cone showing the discrete spring converges at the 60 FPS frame
   step dt = 1/60: displacement and velocity have the same sign with
   |v| ≤ (47/10)|e|; inside this cone one step keeps the cone and contracts
   |e| by at least the factor 89527/90000. -/
def converging (e v : ℚ) : Prop :=
  (0 ≤ e ∧ 0 ≤ v ∧ v ≤ (47/10) * e) ∨ (e ≤ 0 ∧ v ≤ 0 ∧ (47/10) * e ≤ v)

/- Helper ease_out_cubic, src/script.py lines 61-63, over the reals as used by
   the drawing geometry. -/
noncomputable def ease_out_cubic (t : ℝ) : ℝ := 1 - (1 - clamp t 0 1)^3

/- The simulated leaf width of BookAlbum.draw_flip, src/script.py lines
   461-465: angle = ease_out_cubic(t) * pi, scale = |cos angle|,
   leaf_w = max(8, int(page_w * scale)).  page_w * scale is nonnegative, so
   Python int() truncation coincides with the floor. -/
noncomputable def leaf_width (t : ℝ) : ℤ :=
  max 8 ⌊(page_w : ℝ) * |Real.cos (ease_out_cubic t * Real.pi)|⌋

/- The progress value at which the eased angle reaches a quarter turn:
   ease_out_cubic t_min = 1/2, the true minimum point of leaf_width. -/
noncomputable def t_min : ℝ := 1 - (1/2 : ℝ) ^ ((1:ℝ)/3)

/- The progress value at which the eased rotation reaches two thirds of a half
   turn: ease_out_cubic t_two_thirds = 2/3. -/
noncomputable def t_two_thirds : ℝ := 1 - (1/3 : ℝ) ^ ((1:ℝ)/3)

/- Concrete states used to exercise the claims. -/
def c1_book : BookAlbum := { pages := ["a","b","c","d"], index := 2 }

def c2_book : BookAlbum := start_flip { pages := ["a","b","c","d","e","f"], index := 0 } 1

def c3_book : BookAlbum :=
  { pages := ["a","b","c","d","e","f"]
    index := 0
    flip := { flipping := true, direction := 1 }
    drag_commit := some true }

def c4_book : BookAlbum :=
  { pages := ["a","b","c","d","e","f"]
    index := 0
    flip := { dragging := true, direction := 1, drag_x := 1120 } }

def c5_book : BookAlbum :=
  { pages := ["a","b","c","d","e","f"]
    index := 0
    flip := { dragging := true, direction := 1, drag_x := 580 } }

def c6_book : BookAlbum :=
  { pages := ["a","b","c","d","e","f"]
    index := 2
    flip := { dragging := true, direction := -1, drag_x := 100 } }

def c9_book : BookAlbum :=
  { pages := ["a","b"]
    index := 0
    flip := { flipping := true, direction := 1 }
    drag_commit := some true }

def c10_book : BookAlbum := { pages := [], index := 0 }

/- Geometry facts used throughout: the concrete pixel values computed in
   __init__ for the 1200 x 720 window. -/
theorem geometry_values :
    left_rect_left = 80 ∧ left_rect_right = 589 ∧ spine_x = 600 ∧
    right_rect_left = 611 ∧ right_rect_right = 1120 ∧ page_w = 509 ∧
    spread_top = 80 ∧ page_h = 560 := by
  norm_num [left_rect_left, left_rect_right, spine_x, page_w, right_rect_right,
    right_rect_left, spread_left, spread_top, spread_w, spread_h, page_h,
    WINDOW_W, WINDOW_H, BOOK_MARGIN, SPINE_W, PAGE_GAP]

/- While a flip animation is running the autoplay block and the dragging
   branch of update are skipped, so update reduces to the flip branch. -/
theorem update_of_flipping (b : BookAlbum) (dt mx : ℚ)
    (hf : b.flip.flipping = true) (hd : b.flip.dragging = false) :
    update b dt mx = flip_advance b dt := by
  simp [update, autoplay_step, hf, hd]

/- While dragging, the autoplay block is skipped and update reduces to the
   pointer-follow branch. -/
theorem update_of_dragging (b : BookAlbum) (dt mx : ℚ)
    (hd : b.flip.dragging = true) :
    update b dt mx = drag_follow b mx := by
  simp [update, autoplay_step, drag_follow, hd]

/- With no commit attribute, the flip branch is the keyboard animation. -/
theorem flip_advance_none (b : BookAlbum) (dt : ℚ) (hc : b.drag_commit = none) :
    flip_advance b dt = keyboard_advance b dt := by
  unfold flip_advance
  rw [hc]

/- With the commit attribute present, the flip branch is the spring. -/
theorem flip_advance_some (b : BookAlbum) (c : Bool) (dt : ℚ)
    (hc : b.drag_commit = some c) :
    flip_advance b dt = spring_advance b c dt := by
  unfold flip_advance
  rw [hc]

/- finish_flip with progress at 1 shifts the index by the direction and
   resets the FlipState to its defaults. -/
theorem finish_flip_shift (b : BookAlbum) (h : 1 ≤ b.flip.t) :
    finish_flip b =
      { b with
        index := b.index + (if b.flip.direction = 1 then 2
          else if b.flip.direction = -1 then -2 else 0)
        flip := {} } := by
  unfold finish_flip
  rw [if_pos h]
  split_ifs <;> simp_all [sub_eq_add_neg]

/- finish_flip with progress below 1 only resets the FlipState. -/
theorem finish_flip_cancel (b : BookAlbum) (h : ¬ 1 ≤ b.flip.t) :
    finish_flip b = { b with flip := {} } := by
  unfold finish_flip
  rw [if_neg h]

/- finish_flip always resets the FlipState to its defaults. -/
theorem finish_flip_flip (b : BookAlbum) : (finish_flip b).flip = {} := by
  unfold finish_flip
  split_ifs <;> rfl

/- clamp into the unit interval stays in the unit interval. -/
theorem clamp_unit_mem (x : ℚ) : 0 ≤ clamp x 0 1 ∧ clamp x 0 1 ≤ 1 :=
  ⟨le_max_left _ _, max_le (by norm_num) (min_le_left _ _)⟩

/- drag_to_t always lands in [0,1]: it ends in a clamp to the unit interval. -/
theorem drag_to_t_mem (dx : ℚ) (d : ℤ) : 0 ≤ drag_to_t dx d ∧ drag_to_t dx d ≤ 1 := by
  unfold drag_to_t
  split
  · exact clamp_unit_mem _
  · exact clamp_unit_mem _

/-- Claim C1 states that the displayed index always stays nonnegative and
even, and that completing a flip can never produce an out-of-range index even
if the index changes between an episode's start and its completion.  The code
violates exactly that: HOME (handle_event, src/script.py line 348) assigns
index := 0 with no guard on the flip state, so a backward flip legally started
from index 2 completes after the reset and drives the index to -2.  This
theorem evaluates the code on that failing input. -/
theorem C1_home_mid_flip_negative_index :
    can_prev (start_flip c1_book (-1)) ∧
    (start_flip c1_book (-1)).flip.flipping = true ∧
    (handle_event (start_flip c1_book (-1)) BookEvent.keyHome).index = 0 ∧
    (update (handle_event (start_flip c1_book (-1)) BookEvent.keyHome) 1 0).index = -2 := by
  norm_num [c1_book, start_flip, handle_event, update, autoplay_step, flip_advance,
    keyboard_advance, finish_flip, can_prev, can_next, FLIP_SPEED]

/-- Claim C2: for an episode driven only by advance calls, the advance step
that completes the episode shifts the index by exactly +2 for direction Next
and -2 for direction Prev when the episode is an Animating one or a committed
Springing one, and leaves the index unchanged for a cancelled Springing one;
in every case the machine returns to Idle (fresh FlipState, attribute
deleted). -/
theorem C2_completion_index_shift (b : BookAlbum) (dt mx : ℚ)
    (hf : b.flip.flipping = true) (hd : b.flip.dragging = false) :
    ((update b dt mx).flip.flipping = false →
      (update b dt mx).index =
        b.index + (if b.drag_commit = some false then 0
          else if b.flip.direction = 1 then 2
          else if b.flip.direction = -1 then -2 else 0) ∧
      (update b dt mx).flip = {} ∧ (update b dt mx).drag_commit = none) ∧
    ((update b dt mx).flip.flipping = true → (update b dt mx).index = b.index) := by
  obtain ⟨pg, idx, ⟨ff, dir, tt, dg, dx, vl⟩, ap, tm, dc⟩ := b
  dsimp only at hf hd ⊢
  subst hf
  subst hd
  rw [update_of_flipping _ dt mx rfl rfl]
  cases dc with
  | none =>
      rw [flip_advance_none _ dt rfl]
      simp only [keyboard_advance, finish_flip]
      split_ifs with h1 <;> refine ⟨fun hdone => ?_, fun hrun => ?_⟩ <;>
        (try simp_all [sub_eq_add_neg])
  | some c =>
      rw [flip_advance_some _ c dt rfl]
      cases c with
      | true =>
          simp only [spring_advance, if_true, finish_flip]
          split_ifs with hsnap <;> refine ⟨fun hdone => ?_, fun hrun => ?_⟩ <;>
            (try simp_all [sub_eq_add_neg])
      | false =>
          simp only [spring_advance, if_false, finish_flip]
          split_ifs with hsnap <;> refine ⟨fun hdone => ?_, fun hrun => ?_⟩ <;>
            (try simp_all [sub_eq_add_neg]) <;>
            first
              | omega
              | norm_num at *

/-- Witness for C2 at a concrete input: a keyboard flip forward from the first
spread of a six-page book, completed by a single advance of one second. -/
theorem C2_completion_index_shift_witness :
    (update c2_book 1 0).index =
      c2_book.index + (if c2_book.drag_commit = some false then 0
        else if c2_book.flip.direction = 1 then 2
        else if c2_book.flip.direction = -1 then -2 else 0) ∧
    (update c2_book 1 0).flip = {} ∧ (update c2_book 1 0).drag_commit = none :=
  (C2_completion_index_shift c2_book 1 0 rfl rfl).1 (by
    norm_num [c2_book, start_flip, can_next, update, autoplay_step, flip_advance,
      keyboard_advance, finish_flip, FLIP_SPEED])

/-- Counterexample to claim C3 as stated: the spring integration step in
Springing mode does not clamp progress.  From a committed Springing state with
progress 0 and velocity 0, a single advance with dt = 1 drives the stored
progress to 18.92, far above 1, and the machine is still Springing (no
convergence snap happened). -/
theorem C3_spring_step_overshoots :
    1 < (update c3_book 1 0).flip.t ∧ (update c3_book 1 0).flip.flipping = true := by
  norm_num [update, autoplay_step, drag_follow, flip_advance, spring_advance,
    finish_flip, c3_book, DRAG_SPRING, DRAG_DAMP, abs_of_nonneg]

/-- Amended C3: progress stays in [0,1] after every updateDrag call (the
dragging branch leaves progress untouched) and after every advance call in
Animating mode (the keyboard branch clamps at 1 and completion resets to 0);
the Springing branch is the one without such a guarantee. -/
theorem C3_progress_in_unit_interval (b : BookAlbum) (dt mx : ℚ)
    (h : b.flip.dragging = true ∨
      (b.flip.flipping = true ∧ b.flip.dragging = false ∧ b.drag_commit = none))
    (ht0 : 0 ≤ b.flip.t) (ht1 : b.flip.t ≤ 1) (hdt : 0 ≤ dt) :
    0 ≤ (update b dt mx).flip.t ∧ (update b dt mx).flip.t ≤ 1 := by
  rcases h with hd | ⟨hf, hd, hc⟩
  · rw [update_of_dragging b dt mx hd]
    exact ⟨ht0, ht1⟩
  · rw [update_of_flipping b dt mx hf hd, flip_advance_none b dt hc]
    simp only [keyboard_advance]
    split_ifs with h1
    · simp [finish_flip]
    · have h2 : b.flip.t + dt * (FLIP_SPEED / 10) < 1 := not_le.mp h1
      have h3 : (0:ℚ) ≤ dt * (FLIP_SPEED / 10) := by
        norm_num [FLIP_SPEED]
        exact hdt
      constructor
      · show (0:ℚ) ≤ b.flip.t + dt * (FLIP_SPEED / 10)
        linarith
      · show b.flip.t + dt * (FLIP_SPEED / 10) ≤ 1
        linarith

/-- Witness for the amended C3 at a concrete input: a fresh keyboard flip
advanced by half a second keeps progress inside the unit interval. -/
theorem C3_progress_in_unit_interval_witness :
    0 ≤ (update c2_book (1/2) 0).flip.t ∧ (update c2_book (1/2) 0).flip.t ≤ 1 :=
  C3_progress_in_unit_interval c2_book (1/2) 0 (Or.inr ⟨rfl, rfl, rfl⟩)
    (le_refl 0) (by norm_num [show c2_book.flip.t = 0 from rfl]) (by norm_num)

/-- Counterexample to claim C4 as stated: updateDrag does not recompute the
flip progress.  With a forward drag whose stored pointer is at the right edge
and progress 0, dragging the pointer to the spine (x = 600) updates the stored
pointer but leaves progress at 0, while the normalized crossed distance is
1/2. -/
theorem C4_update_drag_ignores_progress :
    (update c4_book (1/60) 600).flip.drag_x = 600 ∧
    (update c4_book (1/60) 600).flip.t = 0 ∧
    drag_to_t 600 1 = 1/2 ∧
    (update c4_book (1/60) 600).flip.t ≠
      drag_to_t (update c4_book (1/60) 600).flip.drag_x (update c4_book (1/60) 600).flip.direction := by
  have hg := geometry_values
  norm_num [update, autoplay_step, drag_follow, c4_book, clamp, drag_to_t,
    hg.1, hg.2.2.2.2.1]

/-- Amended C4: in Dragging mode each update clamps the pointer x to the span
between the two outer page edges and stores it, leaving progress unchanged;
the normalized crossed distance (drag_to_t of the stored pointer), itself
always in [0,1], is written into progress only when the drag ends. -/
theorem C4_drag_updates_pointer_only (b : BookAlbum) (dt mx : ℚ)
    (hd : b.flip.dragging = true) :
    (update b dt mx).flip.drag_x = clamp mx left_rect_left right_rect_right ∧
    (update b dt mx).flip.t = b.flip.t ∧
    (end_drag b).flip.t = drag_to_t b.flip.drag_x b.flip.direction ∧
    0 ≤ drag_to_t b.flip.drag_x b.flip.direction ∧
    drag_to_t b.flip.drag_x b.flip.direction ≤ 1 := by
  rw [update_of_dragging b dt mx hd]
  refine ⟨rfl, rfl, ?_, drag_to_t_mem _ _⟩
  simp [end_drag, hd]

/-- Witness for the amended C4 at the concrete dragging state of the
counterexample. -/
theorem C4_drag_updates_pointer_only_witness :
    (update c4_book (1/60) 600).flip.drag_x = clamp 600 left_rect_left right_rect_right ∧
    (update c4_book (1/60) 600).flip.t = c4_book.flip.t ∧
    (end_drag c4_book).flip.t = drag_to_t c4_book.flip.drag_x c4_book.flip.direction ∧
    0 ≤ drag_to_t c4_book.flip.drag_x c4_book.flip.direction ∧
    drag_to_t c4_book.flip.drag_x c4_book.flip.direction ≤ 1 :=
  C4_drag_updates_pointer_only c4_book (1/60) 600 rfl

/-- Claim C5: end_drag, called in Dragging mode, commits exactly when the last
pointer x has crossed the spine in the direction of travel (forward drag:
pointer strictly left of the spine; backward drag: strictly right of it), and
it enters the springing phase (flipping with the commit attribute set) with
spring velocity 0.  The stored commit flag is what spring_advance later turns
into target 1 (commit) or target 0 (cancel). -/
theorem C5_end_drag_commit_rule (b : BookAlbum)
    (hd : b.flip.dragging = true)
    (hdir : b.flip.direction = 1 ∨ b.flip.direction = -1) :
    (end_drag b).flip.dragging = false ∧
    (end_drag b).flip.flipping = true ∧
    (end_drag b).flip.vel = 0 ∧
    ((end_drag b).drag_commit = some true ↔
      ((b.flip.direction = 1 ∧ b.flip.drag_x < spine_x) ∨
       (b.flip.direction = -1 ∧ spine_x < b.flip.drag_x))) ∧
    (∃ c, (end_drag b).drag_commit = some c) := by
  rcases hdir with h1 | h1 <;>
    simp [end_drag, hd, h1, decide_eq_true_eq]

/-- Witness for C5 at a concrete input: a forward drag whose pointer, at
x = 580, has crossed the spine (x = 600), so releasing commits. -/
theorem C5_end_drag_commit_rule_witness :
    (end_drag c5_book).flip.dragging = false ∧
    (end_drag c5_book).flip.flipping = true ∧
    (end_drag c5_book).flip.vel = 0 ∧
    ((end_drag c5_book).drag_commit = some true ↔
      ((c5_book.flip.direction = 1 ∧ c5_book.flip.drag_x < spine_x) ∨
       (c5_book.flip.direction = -1 ∧ spine_x < c5_book.flip.drag_x))) ∧
    (∃ c, (end_drag c5_book).drag_commit = some c) :=
  C5_end_drag_commit_rule c5_book rfl (Or.inl rfl)

/-- Counterexample to claim C6 as stated: start_drag is not guarded by the
Idle state.  In a Dragging state (backward drag in progress, direction -1), a
start_drag call inside the right-page hot zone is accepted and overwrites the
drag direction with 1, so the call is not a no-op even though the machine is
not Idle. -/
theorem C6_start_drag_not_idle_guarded :
    c6_book.flip.dragging = true ∧
    c6_book.flip.direction = -1 ∧
    (start_drag c6_book 1100 300).flip.direction = 1 ∧
    start_drag c6_book 1100 300 ≠ c6_book := by
  have hdir : (start_drag c6_book 1100 300).flip.direction = 1 := by
    norm_num [start_drag, c6_book, can_next, right_rect_left, right_rect_right,
      spread_top, page_h, spine_x, spread_left, spread_w, spread_h, page_w,
      left_rect_left, WINDOW_W, WINDOW_H, BOOK_MARGIN, SPINE_W, PAGE_GAP]
  refine ⟨rfl, rfl, hdir, fun heq => ?_⟩
  rw [heq] at hdir
  norm_num [c6_book] at hdir

/-- Amended C6: start_flip is a no-op unless the machine is Idle and a
page-pair exists in the requested direction; start_drag is a no-op whenever a
flip animation is in progress (flipping set, i.e. Animating or Springing) and
whenever its hot-zone and page-availability conditions fail; every rejected
call leaves the whole state unchanged.  (Unlike the claim, start_drag issued
while already Dragging can restart the drag, as the counterexample shows.) -/
theorem C6_rejected_calls_leave_state (b : BookAlbum) (d : ℤ) (mx my : ℚ) :
    (b.flip.flipping = true ∨ b.flip.dragging = true → start_flip b d = b) ∧
    (d = 1 → ¬ can_next b → start_flip b d = b) ∧
    (d = -1 → ¬ can_prev b → start_flip b d = b) ∧
    (b.flip.flipping = true → start_drag b mx my = b) ∧
    (b.flip.flipping = false →
      ¬ (can_next b ∧
        (right_rect_left ≤ mx ∧ mx < right_rect_right ∧
         spread_top ≤ my ∧ my < spread_top + page_h) ∧
        right_rect_right - 80 < mx) →
      ¬ (can_prev b ∧
        (left_rect_left ≤ mx ∧ mx < left_rect_left + page_w ∧
         spread_top ≤ my ∧ my < spread_top + page_h) ∧
        mx < left_rect_left + 80) →
      start_drag b mx my = b) := by
  refine ⟨?_, ?_, ?_, ?_, ?_⟩
  · intro h
    unfold start_flip
    split_ifs <;> simp_all
  · intro h1 h2
    unfold start_flip
    split_ifs <;> simp_all
  · intro h1 h2
    unfold start_flip
    split_ifs <;> simp_all
  · intro h
    unfold start_drag
    split_ifs <;> simp_all
  · intro h hn hp
    unfold start_drag
    split_ifs <;> simp_all

/-- Witness for the amended C6 at a concrete input: on a Springing state both
start_flip and an out-of-zone start_drag are rejected unchanged. -/
theorem C6_rejected_calls_leave_state_witness :
    start_flip c3_book 1 = c3_book ∧ start_drag c3_book 500 300 = c3_book :=
  ⟨(C6_rejected_calls_leave_state c3_book 1 500 300).1 (Or.inl rfl),
   (C6_rejected_calls_leave_state c3_book 1 500 300).2.2.2.1 rfl⟩

/-- Counterexample to claim C7 as stated: with the default FLIP_SPEED = 10 the
animation rate is FLIP_SPEED/10 = 1.0 per second, so a full keyboard flip
takes 1.0 second of accumulated dt, not approximately 0.6 seconds: 0.75
seconds after a fresh keyboard flip the animation is still running at progress
3/4, and it completes only when accumulated dt reaches 1 second. -/
theorem C7_flip_takes_one_second :
    (update c2_book (3/4) 0).flip.flipping = true ∧
    (update c2_book (3/4) 0).flip.t = 3/4 ∧
    (update c2_book 1 0).flip.flipping = false ∧
    FLIP_SPEED / 10 = 1 := by
  norm_num [update, autoplay_step, flip_advance, keyboard_advance, finish_flip,
    c2_book, start_flip, can_next, FLIP_SPEED]

/-- Amended C7: in Animating mode advance(dt) adds dt * (FLIP_SPEED / 10) to
the progress; while the result stays below 1 the flip keeps running with
exactly that progress, and once it reaches 1 the progress is clamped to 1 and
the flip completes (finish_flip applies the index shift and resets the
FlipState).  With the default FLIP_SPEED = 10 the rate is 1.0 per second, so a
full flip takes 1.0 second of accumulated dt rather than 0.6. -/
theorem C7_animating_rate (b : BookAlbum) (dt mx : ℚ)
    (hf : b.flip.flipping = true) (hd : b.flip.dragging = false)
    (hc : b.drag_commit = none) :
    (b.flip.t + dt * (FLIP_SPEED / 10) < 1 →
      (update b dt mx).flip.t = b.flip.t + dt * (FLIP_SPEED / 10) ∧
      (update b dt mx).flip.flipping = true) ∧
    (1 ≤ b.flip.t + dt * (FLIP_SPEED / 10) →
      (update b dt mx).flip = {}) := by
  rw [update_of_flipping b dt mx hf hd, flip_advance_none b dt hc]
  simp only [keyboard_advance]
  constructor
  · intro h
    rw [if_neg (not_le.mpr h)]
    exact ⟨rfl, hf⟩
  · intro h
    rw [if_pos h]
    exact finish_flip_flip _

/-- Witness for the amended C7 at a concrete input: a fresh keyboard flip
advanced by half a second reaches exactly progress 1/2 and keeps running. -/
theorem C7_animating_rate_witness :
    (update c2_book (1/2) 0).flip.t = c2_book.flip.t + (1/2) * (FLIP_SPEED / 10) ∧
    (update c2_book (1/2) 0).flip.flipping = true :=
  (C7_animating_rate c2_book (1/2) 0 rfl rfl rfl).1
    (by norm_num [show c2_book.flip.t = 0 from rfl, FLIP_SPEED])

/-- Claim C10: on a book whose page list is empty, startFlip in either
direction, startDrag at any pointer position, an update tick (in particular an
autoplay tick, which resets the index to 0 on exhaustion), and the END key all
leave the index at 0 and the machine Idle, and both displayed page surfaces
take the blank-paper branch rather than failing. -/
theorem C10_empty_book (b : BookAlbum) (dt mx my : ℚ)
    (hp : b.pages = []) (hi : b.index = 0)
    (hf : b.flip.flipping = false) (hd : b.flip.dragging = false) :
    start_flip b 1 = b ∧ start_flip b (-1) = b ∧ start_drag b mx my = b ∧
    (update b dt mx).index = 0 ∧ (update b dt mx).flip.flipping = false ∧
    (update b dt mx).flip.dragging = false ∧
    handle_event b BookEvent.keyEnd = b ∧
    get_page_surface b 0 = none ∧ get_page_surface b 1 = none := by
  have hnext : ¬ can_next b := by norm_num [can_next, hp, hi]
  have hprev : ¬ can_prev b := by norm_num [can_prev, hi]
  have ha : (autoplay_step b dt).index = 0 ∧ (autoplay_step b dt).flip = b.flip := by
    unfold autoplay_step
    split_ifs with h1 h2 h3
    · exact absurd h3 (by norm_num [can_next, hp, hi])
    · exact ⟨rfl, rfl⟩
    · exact ⟨hi, rfl⟩
    · exact ⟨hi, rfl⟩
  have hu : update b dt mx = autoplay_step b dt := by
    unfold update
    simp [ha.2, hf, hd]
  refine ⟨?_, ?_, ?_, ?_, ?_, ?_, ?_, ?_, ?_⟩
  · unfold start_flip
    split_ifs <;> simp_all
  · unfold start_flip
    split_ifs <;> simp_all
  · unfold start_drag
    split_ifs <;> simp_all
  · rw [hu]
    exact ha.1
  · rw [hu, ha.2]
    exact hf
  · rw [hu, ha.2]
    exact hd
  · simp [handle_event, hp]
  · norm_num [get_page_surface, hp]
  · norm_num [get_page_surface, hp]

/-- Witness for C10 at the concrete empty book. -/
theorem C10_empty_book_witness :
    start_flip c10_book 1 = c10_book ∧ start_flip c10_book (-1) = c10_book ∧
    start_drag c10_book 0 0 = c10_book ∧
    (update c10_book 1 0).index = 0 ∧ (update c10_book 1 0).flip.flipping = false ∧
    (update c10_book 1 0).flip.dragging = false ∧
    handle_event c10_book BookEvent.keyEnd = c10_book ∧
    get_page_surface c10_book 0 = none ∧ get_page_surface c10_book 1 = none :=
  C10_empty_book c10_book 1 0 0 rfl rfl rfl rfl

/- Unfolding updates from the far end: n+1 frames are n frames followed by one
   more update. -/
theorem updates_succ_last (dt mx : ℚ) (n : ℕ) (b : BookAlbum) :
    updates dt mx (n+1) b = update (updates dt mx n b) dt mx := by
  induction n generalizing b with
  | zero => rfl
  | succ n ih =>
      show updates dt mx (n+1) (update b dt mx) = update (updates dt mx (n+1) b) dt mx
      rw [ih (update b dt mx)]
      rfl

/- Characterization of one update on a Springing state: either the freshly
   integrated values satisfy the convergence test and the flip finishes, or
   the state stores the integrated values and stays Springing. -/
theorem update_spring_char (s : BookAlbum) (c : Bool) (dt mx : ℚ)
    (hf : s.flip.flipping = true) (hd : s.flip.dragging = false)
    (hc : s.drag_commit = some c) :
    update s dt mx =
      if |spring_target c - spring_new_t c s.flip.t s.flip.vel dt| < 1/500 ∧
          |spring_new_vel c s.flip.t s.flip.vel dt| < 1/100 then
        finish_flip
          { s with
            flip :=
              { s.flip with
                t := spring_target c
                vel := spring_new_vel c s.flip.t s.flip.vel dt }
            drag_commit := none }
      else
        { s with
          flip :=
            { s.flip with
              t := spring_new_t c s.flip.t s.flip.vel dt
              vel := spring_new_vel c s.flip.t s.flip.vel dt } } := by
  rw [update_of_flipping s dt mx hf hd, flip_advance_some s c dt hc]
  rfl

/- One dt = 1 spring step maps the diverging cone into itself with the
   displacement still at least 2 in magnitude. -/
theorem diverging_step (e v : ℚ) (h : diverging e v) :
    diverging (e - (v + e * DRAG_SPRING * 1) * DRAG_DAMP * 1)
      ((v + e * DRAG_SPRING * 1) * DRAG_DAMP) ∧
    2 ≤ |e - (v + e * DRAG_SPRING * 1) * DRAG_DAMP * 1| := by
  simp only [diverging, DRAG_SPRING, DRAG_DAMP] at h ⊢
  rcases h with ⟨h1, h2, h3⟩ | ⟨h1, h2, h3⟩
  · refine ⟨Or.inr ⟨by linarith, by linarith, by linarith⟩, ?_⟩
    rw [le_abs]
    right
    linarith
  · refine ⟨Or.inl ⟨by linarith, by linarith, by linarith⟩, ?_⟩
    rw [le_abs]
    left
    linarith

/- One dt = 1/60 spring step maps the converging cone into itself, contracts
   the displacement by the factor 89527/90000, and keeps the new velocity
   below (47/10) times the old displacement in magnitude. -/
theorem converging_step (e v : ℚ) (h : converging e v) :
    converging (e - (v + e * DRAG_SPRING * (1/60)) * DRAG_DAMP * (1/60))
      ((v + e * DRAG_SPRING * (1/60)) * DRAG_DAMP) ∧
    |e - (v + e * DRAG_SPRING * (1/60)) * DRAG_DAMP * (1/60)| ≤ (89527/90000) * |e| ∧
    |(v + e * DRAG_SPRING * (1/60)) * DRAG_DAMP| ≤ (47/10) * |e| := by
  simp only [converging, DRAG_SPRING, DRAG_DAMP] at h ⊢
  rcases h with ⟨h1, h2, h3⟩ | ⟨h1, h2, h3⟩
  · have hv1 : 0 ≤ (v + e * 22 * (1/60)) * (43/50) := by linarith
    have he1 : 0 ≤ e - (v + e * 22 * (1/60)) * (43/50) * (1/60) := by linarith
    rw [abs_of_nonneg he1, abs_of_nonneg h1, abs_of_nonneg hv1]
    exact ⟨Or.inl ⟨he1, hv1, by linarith⟩, by linarith, by linarith⟩
  · have hv1 : (v + e * 22 * (1/60)) * (43/50) ≤ 0 := by linarith
    have he1 : e - (v + e * 22 * (1/60)) * (43/50) * (1/60) ≤ 0 := by linarith
    rw [abs_of_nonpos he1, abs_of_nonpos h1, abs_of_nonpos hv1]
    exact ⟨Or.inr ⟨he1, hv1, by linarith⟩, by linarith, by linarith⟩

/- At dt = 1 the spring never converges: starting from the committed Springing
   state with progress 0 and velocity 0, every frame leaves the machine
   Springing, with the displacement trapped in the diverging cone. -/
theorem c9_diverges_invariant : ∀ n : ℕ,
    (updates 1 0 n c9_book).flip.flipping = true ∧
    (updates 1 0 n c9_book).flip.dragging = false ∧
    (updates 1 0 n c9_book).drag_commit = some true ∧
    (((updates 1 0 n c9_book).flip.t = 0 ∧ (updates 1 0 n c9_book).flip.vel = 0) ∨
      diverging (1 - (updates 1 0 n c9_book).flip.t) (updates 1 0 n c9_book).flip.vel) := by
  intro n
  induction n with
  | zero => exact ⟨rfl, rfl, rfl, Or.inl ⟨rfl, rfl⟩⟩
  | succ n ih =>
      obtain ⟨hf, hd, hc, hst⟩ := ih
      have harg : spring_target true -
          spring_new_t true (updates 1 0 n c9_book).flip.t (updates 1 0 n c9_book).flip.vel 1 =
          (1 - (updates 1 0 n c9_book).flip.t) -
            ((updates 1 0 n c9_book).flip.vel +
              (1 - (updates 1 0 n c9_book).flip.t) * DRAG_SPRING * 1) * DRAG_DAMP * 1 := by
        simp only [spring_new_t, spring_new_vel, spring_target, if_true]
        ring
      have hvel : spring_new_vel true (updates 1 0 n c9_book).flip.t
          (updates 1 0 n c9_book).flip.vel 1 =
          ((updates 1 0 n c9_book).flip.vel +
            (1 - (updates 1 0 n c9_book).flip.t) * DRAG_SPRING * 1) * DRAG_DAMP := by
        simp only [spring_new_vel, spring_target, if_true]
      have hdiv : diverging
          (1 - (updates 1 0 n c9_book).flip.t) (updates 1 0 n c9_book).flip.vel ∨
          ((updates 1 0 n c9_book).flip.t = 0 ∧ (updates 1 0 n c9_book).flip.vel = 0) := by
        rcases hst with h | h
        · exact Or.inr h
        · exact Or.inl h
      have hkey : diverging
          (1 - spring_new_t true (updates 1 0 n c9_book).flip.t (updates 1 0 n c9_book).flip.vel 1)
          (spring_new_vel true (updates 1 0 n c9_book).flip.t (updates 1 0 n c9_book).flip.vel 1) ∧
          2 ≤ |spring_target true - spring_new_t true (updates 1 0 n c9_book).flip.t
                (updates 1 0 n c9_book).flip.vel 1| := by
        rcases hdiv with h | ⟨ht, hv⟩
        · have := diverging_step _ _ h
          constructor
          · have e1 : 1 - spring_new_t true (updates 1 0 n c9_book).flip.t
                (updates 1 0 n c9_book).flip.vel 1 =
                (1 - (updates 1 0 n c9_book).flip.t) -
                  ((updates 1 0 n c9_book).flip.vel +
                    (1 - (updates 1 0 n c9_book).flip.t) * DRAG_SPRING * 1) * DRAG_DAMP * 1 := by
              simp only [spring_new_t, spring_new_vel, spring_target, if_true]
              ring
            rw [e1, hvel]
            exact this.1
          · rw [harg]
            exact this.2
        · constructor
          · rw [ht, hv]
            norm_num [spring_new_t, spring_new_vel, spring_target, diverging,
              DRAG_SPRING, DRAG_DAMP]
          · rw [ht, hv]
            have hval : spring_target true - spring_new_t true 0 0 1 = -(448/25 : ℚ) := by
              norm_num [spring_new_t, spring_new_vel, spring_target, DRAG_SPRING, DRAG_DAMP]
            rw [hval, abs_neg, abs_of_nonneg (by norm_num : (0:ℚ) ≤ 448/25)]
            norm_num
      have hno : ¬ (|spring_target true - spring_new_t true (updates 1 0 n c9_book).flip.t
            (updates 1 0 n c9_book).flip.vel 1| < 1/500 ∧
          |spring_new_vel true (updates 1 0 n c9_book).flip.t
            (updates 1 0 n c9_book).flip.vel 1| < 1/100) := by
        rintro ⟨h1, -⟩
        have := hkey.2
        linarith
      rw [updates_succ_last, update_spring_char _ true 1 0 hf hd hc, if_neg hno]
      exact ⟨hf, hd, hc, Or.inr hkey.1⟩

/-- Counterexample to claim C9 as stated: the convergence guarantee does not
hold for every fixed positive time step.  With dt = 1, starting from the
committed Springing state with progress 0 and velocity 0 (c9_book), the spring
recurrence diverges and the machine never reaches the convergence condition:
no number of advance calls ever returns it to Idle. -/
theorem C9_spring_diverges_at_dt_one :
    ¬ ∃ n : ℕ, (updates 1 0 n c9_book).flip.flipping = false := by
  rintro ⟨n, hn⟩
  have h := (c9_diverges_invariant n).1
  rw [hn] at h
  exact Bool.noConfusion h

/- At the 60 FPS frame step the machine, once Springing with velocity 0,
   either has already finished within n frames or is still Springing with the
   displacement inside the converging cone and contracted by (89527/90000)^n. -/
theorem frame_spring_invariant (b : BookAlbum) (c : Bool)
    (hf : b.flip.flipping = true) (hd : b.flip.dragging = false)
    (hc : b.drag_commit = some c) (hv : b.flip.vel = 0) :
    ∀ n : ℕ,
      (∃ m, m ≤ n ∧ (updates (1/60) 0 m b).flip.flipping = false) ∨
      ((updates (1/60) 0 n b).flip.flipping = true ∧
       (updates (1/60) 0 n b).flip.dragging = false ∧
       (updates (1/60) 0 n b).drag_commit = some c ∧
       converging (spring_target c - (updates (1/60) 0 n b).flip.t)
         (updates (1/60) 0 n b).flip.vel ∧
       |spring_target c - (updates (1/60) 0 n b).flip.t| ≤
         (89527/90000)^n * |spring_target c - b.flip.t|) := by
  intro n
  induction n with
  | zero =>
      right
      have h0 : (updates (1/60) 0 0 b) = b := rfl
      refine ⟨hf, hd, hc, ?_, ?_⟩
      · rw [h0, hv]
        rcases le_total 0 (spring_target c - b.flip.t) with h | h
        · exact Or.inl ⟨h, le_refl 0, by linarith⟩
        · exact Or.inr ⟨h, le_refl 0, by linarith⟩
      · rw [h0, pow_zero, one_mul]
  | succ n ih =>
      rcases ih with ⟨m, hm, hfl⟩ | ⟨hf', hd', hc', hcone, hbound⟩
      · exact Or.inl ⟨m, Nat.le_succ_of_le hm, hfl⟩
      · set s := updates (1/60) 0 n b with hs
        have harg : spring_target c - spring_new_t c s.flip.t s.flip.vel (1/60) =
            (spring_target c - s.flip.t) -
              (s.flip.vel + (spring_target c - s.flip.t) * DRAG_SPRING * (1/60)) *
                DRAG_DAMP * (1/60) := by
          simp only [spring_new_t, spring_new_vel]
          ring
        have hvel : spring_new_vel c s.flip.t s.flip.vel (1/60) =
            (s.flip.vel + (spring_target c - s.flip.t) * DRAG_SPRING * (1/60)) * DRAG_DAMP :=
          rfl
        have hkey := converging_step (spring_target c - s.flip.t) s.flip.vel hcone
        by_cases hsnap :
            |spring_target c - spring_new_t c s.flip.t s.flip.vel (1/60)| < 1/500 ∧
            |spring_new_vel c s.flip.t s.flip.vel (1/60)| < 1/100
        · left
          refine ⟨n+1, le_refl _, ?_⟩
          rw [updates_succ_last, ← hs,
            update_spring_char s c (1/60) 0 hf' hd' hc', if_pos hsnap, finish_flip_flip]
        · right
          rw [updates_succ_last, ← hs,
            update_spring_char s c (1/60) 0 hf' hd' hc', if_neg hsnap]
          refine ⟨hf', hd', hc', ?_, ?_⟩
          · show converging (spring_target c - spring_new_t c s.flip.t s.flip.vel (1/60))
                (spring_new_vel c s.flip.t s.flip.vel (1/60))
            rw [harg, hvel]
            exact hkey.1
          · show |spring_target c - spring_new_t c s.flip.t s.flip.vel (1/60)| ≤
                (89527/90000)^(n+1) * |spring_target c - b.flip.t|
            rw [harg]
            calc |(spring_target c - s.flip.t) -
                  (s.flip.vel + (spring_target c - s.flip.t) * DRAG_SPRING * (1/60)) *
                    DRAG_DAMP * (1/60)|
                ≤ (89527/90000) * |spring_target c - s.flip.t| := hkey.2.1
              _ ≤ (89527/90000) * ((89527/90000)^n * |spring_target c - b.flip.t|) :=
                  mul_le_mul_of_nonneg_left hbound (by norm_num)
              _ = (89527/90000)^(n+1) * |spring_target c - b.flip.t| := by ring

/-- Amended C9: the convergence guarantee holds at the configured frame rate.
For every Springing episode (commit or cancel) started with velocity 0 from
any progress in [0,1], repeatedly advancing with the 60 FPS frame step
dt = 1/60 reaches the convergence condition after finitely many steps,
snapping to the target and returning the machine to Idle; the counterexample
shows this fails for arbitrary fixed dt (e.g. dt = 1). -/
theorem C9_spring_converges_at_frame_rate (b : BookAlbum) (c : Bool)
    (hf : b.flip.flipping = true) (hd : b.flip.dragging = false)
    (hc : b.drag_commit = some c) (hv : b.flip.vel = 0)
    (ht0 : 0 ≤ b.flip.t) (ht1 : b.flip.t ≤ 1) :
    ∃ n : ℕ, (updates (1/60) 0 n b).flip.flipping = false := by
  have hτ : spring_target c = 1 ∨ spring_target c = 0 := by
    cases c
    · exact Or.inr rfl
    · exact Or.inl rfl
  have he0 : |spring_target c - b.flip.t| ≤ 1 := by
    rcases hτ with h | h <;> rw [h, abs_le] <;> exact ⟨by linarith, by linarith⟩
  obtain ⟨n0, hn0⟩ := exists_pow_lt_of_lt_one (show (0:ℚ) < 1/500 by norm_num)
    (show (89527:ℚ)/90000 < 1 by norm_num)
  rcases frame_spring_invariant b c hf hd hc hv n0 with
    ⟨m, _, hfl⟩ | ⟨hf', hd', hc', hcone, hbound⟩
  · exact ⟨m, hfl⟩
  · set s := updates (1/60) 0 n0 b with hs
    have hesmall : |spring_target c - s.flip.t| < 1/500 := by
      calc |spring_target c - s.flip.t|
          ≤ (89527/90000)^n0 * |spring_target c - b.flip.t| := hbound
        _ ≤ (89527/90000)^n0 * 1 :=
            mul_le_mul_of_nonneg_left he0 (pow_nonneg (by norm_num) _)
        _ = (89527/90000)^n0 := mul_one _
        _ < 1/500 := hn0
    have hkey := converging_step (spring_target c - s.flip.t) s.flip.vel hcone
    have harg : spring_target c - spring_new_t c s.flip.t s.flip.vel (1/60) =
        (spring_target c - s.flip.t) -
          (s.flip.vel + (spring_target c - s.flip.t) * DRAG_SPRING * (1/60)) *
            DRAG_DAMP * (1/60) := by
      simp only [spring_new_t, spring_new_vel]
      ring
    have hvel : spring_new_vel c s.flip.t s.flip.vel (1/60) =
        (s.flip.vel + (spring_target c - s.flip.t) * DRAG_SPRING * (1/60)) * DRAG_DAMP :=
      rfl
    have he1 : |spring_target c - spring_new_t c s.flip.t s.flip.vel (1/60)| < 1/500 := by
      rw [harg]
      calc |(spring_target c - s.flip.t) -
            (s.flip.vel + (spring_target c - s.flip.t) * DRAG_SPRING * (1/60)) *
              DRAG_DAMP * (1/60)|
          ≤ (89527/90000) * |spring_target c - s.flip.t| := hkey.2.1
        _ ≤ 1 * |spring_target c - s.flip.t| :=
            mul_le_mul_of_nonneg_right (by norm_num) (abs_nonneg _)
        _ = |spring_target c - s.flip.t| := one_mul _
        _ < 1/500 := hesmall
    have hv1 : |spring_new_vel c s.flip.t s.flip.vel (1/60)| < 1/100 := by
      rw [hvel]
      calc |(s.flip.vel + (spring_target c - s.flip.t) * DRAG_SPRING * (1/60)) * DRAG_DAMP|
          ≤ (47/10) * |spring_target c - s.flip.t| := hkey.2.2
        _ < (47/10) * (1/500) := (mul_lt_mul_left (by norm_num)).mpr hesmall
        _ ≤ 1/100 := by norm_num
    refine ⟨n0 + 1, ?_⟩
    rw [updates_succ_last, ← hs,
      update_spring_char s c (1/60) 0 hf' hd' hc', if_pos ⟨he1, hv1⟩, finish_flip_flip]

/-- Witness for the amended C9 at a concrete input: the committed Springing
state with progress 0 and velocity 0 converges to Idle in finitely many 60 FPS
frames. -/
theorem C9_spring_converges_at_frame_rate_witness :
    ∃ n : ℕ, (updates (1/60) 0 n c3_book).flip.flipping = false :=
  C9_spring_converges_at_frame_rate c3_book true rfl rfl rfl rfl
    (by norm_num [show c3_book.flip.t = 0 from rfl])
    (by norm_num [show c3_book.flip.t = 0 from rfl])

/- The page width in real coordinates is the 509 computed in __init__. -/
theorem page_w_real : (page_w : ℝ) = 509 := by
  norm_num [page_w, spread_w, WINDOW_W, BOOK_MARGIN, SPINE_W, PAGE_GAP]

/- Cube of the real cube root of a nonnegative number. -/
theorem rpow_third_cube (x : ℝ) (hx : 0 ≤ x) : (x ^ ((1:ℝ)/3))^(3:ℕ) = x := by
  rw [← Real.rpow_natCast (x ^ ((1:ℝ)/3)) 3, ← Real.rpow_mul hx]
  norm_num

/- ease_out_cubic at 1 - x for x in [0,1]. -/
theorem ease_out_cubic_one_sub (x : ℝ) (hx0 : 0 ≤ x) (hx1 : x ≤ 1) :
    ease_out_cubic (1 - x) = 1 - x^3 := by
  unfold ease_out_cubic clamp
  rw [min_eq_right (by linarith), max_eq_right (by linarith)]
  ring_nf

/- The eased progress at t_min is exactly one half: the leaf is edge-on. -/
theorem ease_out_cubic_t_min : ease_out_cubic t_min = 1/2 := by
  unfold t_min
  rw [ease_out_cubic_one_sub _ (Real.rpow_nonneg (by norm_num) _)
    (Real.rpow_le_one (by norm_num) (by norm_num) (by norm_num)),
    rpow_third_cube _ (by norm_num)]
  norm_num

/- The eased progress at t_two_thirds is exactly two thirds. -/
theorem ease_out_cubic_t_two_thirds : ease_out_cubic t_two_thirds = 2/3 := by
  unfold t_two_thirds
  rw [ease_out_cubic_one_sub _ (Real.rpow_nonneg (by norm_num) _)
    (Real.rpow_le_one (by norm_num) (by norm_num) (by norm_num)),
    rpow_third_cube _ (by norm_num)]
  norm_num

/- t_min lies in the unit interval. -/
theorem t_min_nonneg : 0 ≤ t_min := by
  unfold t_min
  have := Real.rpow_le_one (show (0:ℝ) ≤ 1/2 by norm_num)
    (show (1:ℝ)/2 ≤ 1 by norm_num) (show (0:ℝ) ≤ 1/3 by norm_num)
  linarith

/- ease_out_cubic is monotone. -/
theorem ease_out_cubic_mono {t1 t2 : ℝ} (h : t1 ≤ t2) :
    ease_out_cubic t1 ≤ ease_out_cubic t2 := by
  unfold ease_out_cubic clamp
  have hm : max 0 (min 1 t1) ≤ max 0 (min 1 t2) :=
    max_le_max (le_refl 0) (min_le_min (le_refl 1) h)
  have h0 : (0:ℝ) ≤ 1 - max 0 (min 1 t2) := by
    have : max 0 (min 1 t2) ≤ 1 := max_le (by norm_num) (min_le_left _ _)
    linarith
  have := pow_le_pow_left₀ h0 (by linarith : 1 - max 0 (min 1 t2) ≤ 1 - max 0 (min 1 t1)) 3
  linarith

/- ease_out_cubic stays in the unit interval. -/
theorem ease_out_cubic_mem (t : ℝ) : 0 ≤ ease_out_cubic t ∧ ease_out_cubic t ≤ 1 := by
  unfold ease_out_cubic clamp
  have ha : (0:ℝ) ≤ max 0 (min 1 t) := le_max_left _ _
  have hb : max 0 (min 1 t) ≤ 1 := max_le (by norm_num) (min_le_left _ _)
  have h0 : (0:ℝ) ≤ 1 - max 0 (min 1 t) := by linarith
  have h1 : (1 - max 0 (min 1 t))^3 ≤ 1 := by
    have := pow_le_pow_left₀ h0 (by linarith : 1 - max 0 (min 1 t) ≤ 1) 3
    simpa using this
  have h2 : (0:ℝ) ≤ (1 - max 0 (min 1 t))^3 := pow_nonneg h0 3
  constructor <;> linarith

/- On angles up to a quarter turn the projected width |cos| is antitone. -/
theorem abs_cos_anti_first {e1 e2 : ℝ} (h0 : 0 ≤ e1) (h12 : e1 ≤ e2) (h2 : e2 ≤ 1/2) :
    |Real.cos (e2 * Real.pi)| ≤ |Real.cos (e1 * Real.pi)| := by
  have hpi := Real.pi_pos
  have ha1 : 0 ≤ e1 * Real.pi := mul_nonneg h0 hpi.le
  have hb : e1 * Real.pi ≤ e2 * Real.pi := mul_le_mul_of_nonneg_right h12 hpi.le
  have ha2 : e2 * Real.pi ≤ Real.pi / 2 := by nlinarith
  have hc2 : 0 ≤ Real.cos (e2 * Real.pi) :=
    Real.cos_nonneg_of_mem_Icc ⟨by nlinarith, ha2⟩
  have hc1 : 0 ≤ Real.cos (e1 * Real.pi) :=
    Real.cos_nonneg_of_mem_Icc ⟨by nlinarith, by linarith⟩
  rw [abs_of_nonneg hc1, abs_of_nonneg hc2]
  exact Real.cos_le_cos_of_nonneg_of_le_pi ha1 (by nlinarith) hb

/- Past a quarter turn the projected width |cos| is monotone. -/
theorem abs_cos_mono_second {e1 e2 : ℝ} (h0 : 1/2 ≤ e1) (h12 : e1 ≤ e2) (h2 : e2 ≤ 1) :
    |Real.cos (e1 * Real.pi)| ≤ |Real.cos (e2 * Real.pi)| := by
  have hpi := Real.pi_pos
  have hc1 : Real.cos (e1 * Real.pi) ≤ 0 :=
    Real.cos_nonpos_of_pi_div_two_le_of_le (by nlinarith) (by nlinarith)
  have hc2 : Real.cos (e2 * Real.pi) ≤ 0 :=
    Real.cos_nonpos_of_pi_div_two_le_of_le (by nlinarith) (by nlinarith)
  rw [abs_of_nonpos hc1, abs_of_nonpos hc2]
  have h := Real.cos_le_cos_of_nonneg_of_le_pi
    (by nlinarith : (0:ℝ) ≤ e1 * Real.pi) (by nlinarith : e2 * Real.pi ≤ Real.pi)
    (mul_le_mul_of_nonneg_right h12 hpi.le)
  linarith

/- leaf_width is monotone in the projected width. -/
theorem leaf_width_le_of_abs_cos {t1 t2 : ℝ}
    (h : |Real.cos (ease_out_cubic t1 * Real.pi)| ≤ |Real.cos (ease_out_cubic t2 * Real.pi)|) :
    leaf_width t1 ≤ leaf_width t2 := by
  unfold leaf_width
  refine max_le_max (le_refl 8) (Int.floor_le_floor ?_)
  rw [page_w_real]
  nlinarith [abs_nonneg (Real.cos (ease_out_cubic t1 * Real.pi))]

/- The leaf width at t_min is the 8-pixel floor. -/
theorem leaf_width_t_min : leaf_width t_min = 8 := by
  unfold leaf_width
  rw [ease_out_cubic_t_min, page_w_real,
    show (1/2 : ℝ) * Real.pi = Real.pi / 2 by ring,
    Real.cos_pi_div_two, abs_zero, mul_zero, Int.floor_zero]
  decide

/- The leaf width at t_two_thirds is 254 pixels. -/
theorem leaf_width_t_two_thirds : leaf_width t_two_thirds = 254 := by
  unfold leaf_width
  rw [ease_out_cubic_t_two_thirds, page_w_real,
    show (2/3 : ℝ) * Real.pi = Real.pi - Real.pi / 3 by ring,
    Real.cos_pi_sub, Real.cos_pi_div_three, abs_neg,
    abs_of_nonneg (by norm_num : (0:ℝ) ≤ 1/2),
    show (509:ℝ) * (1/2) = 509/2 by norm_num,
    show ⌊(509:ℝ)/2⌋ = 254 by rw [Int.floor_eq_iff] <;> norm_num]
  decide

/-- Counterexample to claim C8 as stated: because the rotation angle uses the
eased progress, the leaf width is not monotone in the raw progress on
[0, 0.5] and its minimum is not at progress 0.5.  At t_min = 1 - (1/2)^(1/3)
(about 0.206) the eased angle is already a quarter turn and the width is
floored at 8, while at the larger progress t_two_thirds = 1 - (1/3)^(1/3)
(about 0.307, still below 0.5) the width has grown back to 254: the width
strictly increases between two points of [0, 0.5]. -/
theorem C8_width_not_monotone_on_first_half :
    0 ≤ t_min ∧ t_min ≤ t_two_thirds ∧ t_two_thirds ≤ 1/2 ∧
    leaf_width t_min < leaf_width t_two_thirds := by
  refine ⟨t_min_nonneg, ?_, ?_, ?_⟩
  · unfold t_min t_two_thirds
    have := Real.rpow_le_rpow (show (0:ℝ) ≤ 1/3 by norm_num)
      (show (1:ℝ)/3 ≤ 1/2 by norm_num) (show (0:ℝ) ≤ 1/3 by norm_num)
    linarith
  · unfold t_two_thirds
    have hx0 : (0:ℝ) ≤ (1/3 : ℝ) ^ ((1:ℝ)/3) := Real.rpow_nonneg (by norm_num) _
    have hcube : ((1/3 : ℝ) ^ ((1:ℝ)/3))^(3:ℕ) = 1/3 := rpow_third_cube _ (by norm_num)
    have hhalf : (1/2 : ℝ) ≤ (1/3 : ℝ) ^ ((1:ℝ)/3) := by
      by_contra hlt
      push_neg at hlt
      have h := pow_lt_pow_left₀ hlt hx0 three_ne_zero
      rw [hcube] at h
      norm_num at h
    linarith
  · rw [leaf_width_t_min, leaf_width_t_two_thirds]
    decide

/-- Amended C8: the leaf width is monotonically non-increasing for progress
between 0 and t_min = 1 - (1/2)^(1/3) (the point where the eased rotation
ease_out_cubic reaches a quarter turn, ease_out_cubic t_min = 1/2), monotone
non-decreasing from t_min to 1, and attains its minimum (the 8-pixel floor) at
t_min — not at raw progress 0.5 as the claim states. -/
theorem C8_width_monotone_about_eased_midpoint :
    (∀ t1 t2 : ℝ, 0 ≤ t1 → t1 ≤ t2 → t2 ≤ t_min → leaf_width t2 ≤ leaf_width t1) ∧
    (∀ t1 t2 : ℝ, t_min ≤ t1 → t1 ≤ t2 → t2 ≤ 1 → leaf_width t1 ≤ leaf_width t2) ∧
    (∀ t : ℝ, leaf_width t_min ≤ leaf_width t) ∧
    ease_out_cubic t_min = 1/2 := by
  refine ⟨?_, ?_, ?_, ease_out_cubic_t_min⟩
  · intro t1 t2 h0 h12 h2
    refine leaf_width_le_of_abs_cos (abs_cos_anti_first ?_ ?_ ?_)
    · exact (ease_out_cubic_mem t1).1
    · exact ease_out_cubic_mono h12
    · rw [← ease_out_cubic_t_min]
      exact ease_out_cubic_mono h2
  · intro t1 t2 h1 h12 h2
    refine leaf_width_le_of_abs_cos (abs_cos_mono_second ?_ ?_ ?_)
    · rw [← ease_out_cubic_t_min]
      exact ease_out_cubic_mono h1
    · exact ease_out_cubic_mono h12
    · exact (ease_out_cubic_mem t2).2
  · intro t
    rw [leaf_width_t_min]
    exact le_max_left 8 _

/-- Witness for the amended C8 at concrete inputs: both monotonicity parts and
the minimum, instantiated at progress 0, t_min and 1. -/
theorem C8_width_monotone_about_eased_midpoint_witness :
    leaf_width 0 ≤ leaf_width 0 ∧ leaf_width t_min ≤ leaf_width 1 ∧
    leaf_width t_min ≤ leaf_width (1/2) :=
  ⟨C8_width_monotone_about_eased_midpoint.1 0 0 (le_refl 0) (le_refl 0) t_min_nonneg,
   C8_width_monotone_about_eased_midpoint.2.1 t_min 1 (le_refl t_min)
     (by
        unfold t_min
        have := Real.rpow_nonneg (show (0:ℝ) ≤ 1/2 by norm_num) ((1:ℝ)/3)
        linarith)
     (le_refl 1),
   C8_width_monotone_about_eased_midpoint.2.2.1 (1/2)⟩
